import Mathlib

/-!
Verification of the `sendconfig` update strategies of the Kong kubernetes
ingress controller against their natural-language specification.

The Go sources embedded here are
`internal/dataplane/sendconfig/inmemory.go` (whole-state strategy) and the
DB-mode (diff-apply) strategy file: `UpdateStrategyInMemory.Update`,
`UpdateStrategyDBMode.Update`, `HandleEvents` and
`resourceErrorFromEntityAction`.

Modelling conventions:
* Go byte slices are modelled as `String`; a `nil` slice or `nil` pointer is
  `Option.none` where the distinction is observable.
* Go `error` values are modelled structurally by the inductive `GoError`;
  `fmt.Errorf("...: %w", e)` becomes `GoError.wrapped msg [e]`.
* Go panics (crashes) are modelled explicitly: classification returns a
  `ClassifyResult` with a `crash` alternative, and event-stream consumption
  returns `Option` (`none` = the consuming goroutine panicked).
* External capabilities (converter, marshalling, reload transport, state
  fetch/render, syncer) are fields of the strategy / an environment record,
  exactly as they are injected interfaces or external calls in the source.
-/

namespace Sendconfig

/-- Normalized per-entity failure record shared by both strategies
(spec data model: name, kind, ordered tags, problems map; the problems
map is modelled as an association list). -/
structure ResourceError where
  name : String
  kind : String
  tags : List String
  problems : List (String × String)
deriving DecidableEq, Repr

/-- The raw resource error record built by `resourceErrorFromEntityAction`
before final packaging; the source sets exactly the fields `Name`, `Tags`
and `Problems`. -/
structure rawResourceError where
  name : String
  tags : List String
  problems : List (String × String)
deriving DecidableEq, Repr

/-- Modelled from the spec: `parseRawResourceError` is repository code that
is absent from the provided sources (only its call site is). Spec section 4.4
step 7 says classification returns `ResourceError{name, kind, tags, problems}`
whose name and kind are the event entity name and kind. The raw record built
by the source carries only name, tags and problems, so the kind is supplied
alongside it here. -/
def parseRawResourceError (raw : rawResourceError) (kind : String) : ResourceError :=
  { name := raw.name, kind := kind, tags := raw.tags, problems := raw.problems }

/-- The value of a struct field named `Tags`, as seen through `reflect`. -/
inductive TagsField where
  /-- A field of Go type `[]*string`. `none` models the nil slice, which is
  the zero value of the type; `some l` is a non-nil slice (possibly empty)
  whose entries are possibly-nil string pointers. -/
  | strPtrSlice (value : Option (List (Option String)))
  /-- A field of some other Go type; the flag records whether it holds its
  type zero value (`reflect.Value.IsZero`). -/
  | otherType (isZeroValue : Bool)
deriving DecidableEq, Repr

/-- An entity snapshot (`Entity.Old` / `Entity.New`, of Go type `any`) after
`reflect.Indirect(reflect.ValueOf(subj))`. -/
inductive Snapshot where
  /-- The indirected value is a struct; `tagsField` is the field named
  `Tags` if the struct has one (`reflect.Value.FieldByName` returns the
  invalid zero `reflect.Value` when it does not, modelled as `none`). -/
  | structVal (tagsField : Option TagsField)
  /-- The indirected value is not a struct; `kindName` is the name of its
  reflect Kind (for a nil `any` or nil pointer this is "invalid"). -/
  | nonStruct (kindName : String)
deriving DecidableEq, Repr

/-- `Entity` of the diff engine: name, kind and the old/new snapshots
(`nil` interface values are `none`). -/
structure Entity where
  name : String
  kind : String
  old : Option Snapshot
  new : Option Snapshot
deriving DecidableEq, Repr

/-- `diff.EntityAction`: one per-entity outcome of a diff-apply run. The
`error` field models the Go `error` by its formatted text (`none` = nil). -/
structure EntityAction where
  action : String
  entity : Entity
  diff : String
  error : Option String
deriving DecidableEq, Repr

/-- Outcome of `resourceErrorFromEntityAction`: a parsed record, a returned
classification error, or a Go runtime panic. -/
inductive ClassifyResult where
  | ok (re : ResourceError)
  | err (msg : String)
  | crash (msg : String)
deriving DecidableEq, Repr

/-- Snapshot selection of the source: `event.Entity.New` if non-nil, else
`event.Entity.Old`; when both are nil the reflected value is the invalid
`reflect.Value`, whose Kind prints as "invalid". -/
def EntityAction.reflectedSubj (event : EntityAction) : Snapshot :=
  match event.entity.new with
  | some s => s
  | none =>
    match event.entity.old with
    | some s => s
    | none => .nonStruct "invalid"

/-- The text of `fmt.Sprintf("%s", event.Error)`; a nil error prints as the
Go verb-mismatch placeholder, but every caller in the source reaches this
only with a non-nil error. -/
def EntityAction.errText (event : EntityAction) : String :=
  match event.error with
  | some t => t
  | none => "%!s(<nil>)"

/-- The dereferencing loop `for _, s := range tags { actualTags =
append(actualTags, *s) }`: dereferencing a nil entry is a runtime panic,
modelled as `none`. -/
def derefTags : List (Option String) → Option (List String)
  | [] => some []
  | none :: _ => none
  | some s :: rest => (derefTags rest).map (fun l => s :: l)

/-- `reflect.Value.IsZero` on a value of the `Tags` field: the nil
`[]*string` slice is the zero value, a non-nil slice (even empty) is not. -/
def TagsField.isZeroValue : TagsField → Bool
  | .strPtrSlice none => true
  | .strPtrSlice (some _) => false
  | .otherType b => b

/-- Embedding of `resourceErrorFromEntityAction` (diff-apply error
classifier). Faithful points of the source:
* subject selection prefers the new snapshot;
* a non-struct subject returns a descriptive error (guarding the
  `FieldByName` panic);
* a struct without a `Tags` field makes `FieldByName` return the invalid
  zero `reflect.Value`, on which `reflect.Value.IsZero` panics ("IsZero ...
  panics if the Value is invalid"), modelled as `crash`;
* a present but zero-valued field returns the "lacks Tags field" error;
* a non-zero field of a type other than `[]*string` fails the type
  assertion and returns the "not a []*string" error;
* the dereferencing loop panics on a nil tag entry (`crash`);
* otherwise the raw record `{Name, Tags, Problems}` with
  `Problems = {"": fmt.Sprintf("%s", event.Error)}` is packaged by
  `parseRawResourceError`. -/
def resourceErrorFromEntityAction (event : EntityAction) : ClassifyResult :=
  match event.reflectedSubj with
  | .nonStruct k =>
    .err ("entity " ++ event.entity.kind ++ "/" ++ event.entity.name ++
      " is " ++ k ++ ", not Struct")
  | .structVal none =>
    .crash "reflect: call of reflect.Value.IsZero on zero Value"
  | .structVal (some tf) =>
    if tf.isZeroValue then
      .err ("entity " ++ event.entity.kind ++ "/" ++ event.entity.name ++
        " lacks Tags field")
    else
      match tf with
      | .otherType _ =>
        .err ("entity " ++ event.entity.kind ++ "/" ++ event.entity.name ++
          " Tags field is not a pointer-to-string slice")
      | .strPtrSlice none =>
        .err ("entity " ++ event.entity.kind ++ "/" ++ event.entity.name ++
          " lacks Tags field")
      | .strPtrSlice (some tags) =>
        match derefTags tags with
        | none => .crash "runtime error: invalid memory address or nil pointer dereference"
        | some actualTags =>
          .ok (parseRawResourceError
            { name := event.entity.name
              tags := actualTags
              problems := [("", event.errText)] }
            event.entity.kind)

theorem derefTags_map_some (l : List String) : derefTags (l.map some) = some l := by
  induction l with
  | nil => rfl
  | cons x xs ih => simp [derefTags, ih]

/-- C1: an event carrying an error whose selected snapshot is a struct with
a well-formed (all non-nil) tag list classifies to a `ResourceError` whose
name and kind are the event entity name and kind, whose tags are the tag
values in order, and whose problems map is exactly the whole-entity entry
mapping the empty field path to the event error text. -/
theorem classification_wellformed_tags (e : EntityAction) (txt : String)
    (tags : List String)
    (he : e.error = some txt)
    (hs : e.reflectedSubj = .structVal (some (.strPtrSlice (some (tags.map some))))) :
    resourceErrorFromEntityAction e =
      .ok { name := e.entity.name, kind := e.entity.kind, tags := tags,
            problems := [("", txt)] } := by
  unfold resourceErrorFromEntityAction
  rw [hs]
  simp only [TagsField.isZeroValue, Bool.false_eq_true, if_false,
    derefTags_map_some, EntityAction.errText, he, parseRawResourceError]

/-- Concrete instance of C1, the spec example: tags
["team-a", "team-a/svc-1"] and error text "schema violation" yield exactly
that ResourceError. -/
theorem classification_wellformed_tags_witness :
    resourceErrorFromEntityAction
      { action := "create"
        entity :=
          { name := "svc-1", kind := "service"
            old := none
            new := some (.structVal (some (.strPtrSlice
              (some [some "team-a", some "team-a/svc-1"])))) }
        diff := ""
        error := some "schema violation" } =
      .ok { name := "svc-1", kind := "service"
            tags := ["team-a", "team-a/svc-1"]
            problems := [("", "schema violation")] } := by
  exact classification_wellformed_tags
    { action := "create"
      entity :=
        { name := "svc-1", kind := "service"
          old := none
          new := some (.structVal (some (.strPtrSlice
            (some [some "team-a", some "team-a/svc-1"])))) }
      diff := ""
      error := some "schema violation" }
    "schema violation" ["team-a", "team-a/svc-1"] rfl rfl

/-- C4 failing input: a tag list holding a nil entry alongside non-nil
values. -/
def nilTagEvent : EntityAction :=
  { action := "create"
    entity :=
      { name := "svc-2", kind := "service"
        old := none
        new := some (.structVal (some (.strPtrSlice
          (some [some "team-a", none, some "team-b"])))) }
    diff := ""
    error := some "schema violation" }

/-- C4: the claim says nil tag entries are skipped and classification does
not crash; the source dereferences every entry without a nil check, so a nil
entry is a nil-pointer-dereference panic. At the concrete failing input the
classifier crashes instead of returning the non-nil tags. -/
theorem classification_nil_tag_crashes :
    resourceErrorFromEntityAction nilTagEvent =
      .crash "runtime error: invalid memory address or nil pointer dereference" := by
  rfl

/-- C5 failing input: a struct snapshot that has no field named `Tags`. -/
def missingTagsFieldEvent : EntityAction :=
  { action := "update"
    entity :=
      { name := "svc-3", kind := "route"
        old := none
        new := some (.structVal none) }
    diff := ""
    error := some "schema violation" }

/-- C5: the claim (and the error message the source itself prepares) says a
snapshot lacking the tag-list field fails classification with a descriptive
error; in the source `FieldByName` returns the invalid zero `reflect.Value`
for a missing field and `reflect.Value.IsZero` panics on an invalid value,
so classification crashes instead. -/
theorem classification_missing_tags_field_crashes :
    resourceErrorFromEntityAction missingTagsFieldEvent =
      .crash "reflect: call of reflect.Value.IsZero on zero Value" := by
  rfl

/-- Structural model of Go `error` values as built by the sources:
`base` a plain `errors.New`-style error, `wrapped msg inner` a
`fmt.Errorf("msg: %w(...)", inner...)` wrap, `configConflict` the
distinguished `deckerrors.ConfigConflictError` kind, `errArray` the
`deckutils.ErrArray` collection, `updateError` the aggregate
`UpdateError{resourceErrors, cause}`. -/
inductive GoError where
  | base (msg : String)
  | wrapped (msg : String) (inner : List GoError)
  | configConflict (err : GoError)
  | errArray (errors : List GoError)
  | updateError (resourceErrors : List ResourceError) (cause : GoError)

/-- Modelled from the spec: `NewUpdateError` is repository code absent from
the provided sources; per the spec data model an UpdateError carries the
resource-error sequence and the underlying cause. -/
def NewUpdateError (resourceFailures : List ResourceError) (cause : GoError) : GoError :=
  .updateError resourceFailures cause

/-- Modelled from the spec: `resourceErrorsToResourceFailures` is repository
code absent from the provided sources; the spec aggregation wording says the
aggregate wraps "the resource list" itself, so the conversion is modelled as
the identity on the accumulated list. -/
def resourceErrorsToResourceFailures (l : List ResourceError) : List ResourceError := l

/-- The distinguished conflict error kind is recognisable by its head
constructor. -/
def GoError.isConflict : GoError → Bool
  | .configConflict _ => true
  | _ => false

/-- Opaque desired-state document (`*file.Content`). -/
structure FileContent where
  raw : String
deriving DecidableEq, Repr

/-- `ContentWithHash`: desired-state document plus its fingerprint. -/
structure ContentWithHash where
  content : FileContent
  hash : String
deriving DecidableEq, Repr

/-- Opaque proxy-native declarative payload (`DBLessConfig`). -/
structure DBLessConfig where
  raw : String
deriving DecidableEq, Repr

/-- Per-entity error parsed from a flattened `/config` error body. The
concrete Go struct is outside the provided sources; the spec says the body
parses into the normalized per-resource shape, so it is identified with
`ResourceError`. -/
abbrev FlatEntityError := ResourceError

/-- Embedding of `UpdateStrategyInMemory`: the injected converter and
reload transport capabilities are fields, as in the source struct; `marshal`
stands for the external `json.Marshal` call; the logger is omitted (it only
produces log lines). -/
structure UpdateStrategyInMemory where
  /-- `ContentToDBLessConfigConverter.Convert`. -/
  convert : FileContent → DBLessConfig
  /-- `json.Marshal` on the converted config; bytes are modelled as a
  string. -/
  marshal : DBLessConfig → Except GoError String
  /-- `ConfigService.ReloadDeclarativeRawConfig(config, checkHash,
  flattenErrors)`: returns the raw error body and the reload error
  (`none` = nil). -/
  reload : String → Bool → Bool → String × Option GoError
  /-- Modelled from the spec: `parseFlatEntityErrors` is repository code
  absent from the provided sources; the spec says only that the raw error
  body is parsed into a per-resource error list and that this parse can
  itself fail, so it is modelled as an injected total parse capability. -/
  parseFlatEntityErrors : String → Except GoError (List FlatEntityError)

/-- Embedding of `UpdateStrategyInMemory.Update`. Result triple mirrors the
Go named returns `(err, resourceErrors, rawErrBody)`; nil slices are
`none`. -/
def UpdateStrategyInMemory.Update (s : UpdateStrategyInMemory)
    (targetState : ContentWithHash) :
    Option GoError × Option (List FlatEntityError) × Option String :=
  let dblessConfig := s.convert targetState.content
  match s.marshal dblessConfig with
  | .error e => (some (.wrapped "constructing kong configuration" [e]), none, none)
  | .ok config =>
    match s.reload config true true with
    | (errBody, some reloadErr) =>
      match s.parseFlatEntityErrors errBody with
      | .error e =>
        (some (.wrapped "failed to parse config error" [reloadErr, e]), none, some errBody)
      | .ok entityErrs => (some reloadErr, some entityErrs, some errBody)
    | (_, none) => (none, none, none)

/-- C2: on a reload failure, a body that parses yields the reload error, the
parsed per-entity list and the raw body; a body that does not parse yields
an error wrapping both the reload failure and the parse failure, nil
resourceErrors, and the raw body still attached. -/
theorem inMemoryUpdate_reload_failure (s : UpdateStrategyInMemory)
    (t : ContentWithHash) (cfg body : String) (reloadErr : GoError)
    (hm : s.marshal (s.convert t.content) = .ok cfg)
    (hr : s.reload cfg true true = (body, some reloadErr)) :
    (∀ lst, s.parseFlatEntityErrors body = .ok lst →
      s.Update t = (some reloadErr, some lst, some body)) ∧
    (∀ parseErr, s.parseFlatEntityErrors body = .error parseErr →
      s.Update t =
        (some (.wrapped "failed to parse config error" [reloadErr, parseErr]),
         none, some body)) := by
  constructor
  · intro lst hp
    simp only [UpdateStrategyInMemory.Update, hm, hr, hp]
  · intro parseErr hp
    simp only [UpdateStrategyInMemory.Update, hm, hr, hp]

/-- A whole-state strategy whose reload fails with a parseable body. -/
def inMemoryParseableFixture : UpdateStrategyInMemory :=
  { convert := fun c => ⟨c.raw⟩
    marshal := fun d => .ok d.raw
    reload := fun _ _ _ => ("BODY", some (.base "reload failed"))
    parseFlatEntityErrors := fun _ =>
      .ok [{ name := "svc1", kind := "", tags := ["t1"],
             problems := [("host", "required")] }] }

/-- A whole-state strategy whose reload fails with an unparseable body. -/
def inMemoryUnparseableFixture : UpdateStrategyInMemory :=
  { inMemoryParseableFixture with
    parseFlatEntityErrors := fun _ => .error (.base "invalid character") }

/-- Concrete instance of C2, both branches: the parseable body yields the
populated list and the body; the unparseable one yields the double wrap with
the body attached. -/
theorem inMemoryUpdate_reload_failure_witness :
    inMemoryParseableFixture.Update ⟨⟨"cfg"⟩, "abc123"⟩ =
      (some (.base "reload failed"),
       some [{ name := "svc1", kind := "", tags := ["t1"],
               problems := [("host", "required")] }],
       some "BODY") ∧
    inMemoryUnparseableFixture.Update ⟨⟨"cfg"⟩, "abc123"⟩ =
      (some (.wrapped "failed to parse config error"
              [.base "reload failed", .base "invalid character"]),
       none, some "BODY") := by
  constructor
  · exact (inMemoryUpdate_reload_failure inMemoryParseableFixture
      ⟨⟨"cfg"⟩, "abc123"⟩ "cfg" "BODY" (.base "reload failed") rfl rfl).1 _ rfl
  · exact (inMemoryUpdate_reload_failure inMemoryUnparseableFixture
      ⟨⟨"cfg"⟩, "abc123"⟩ "cfg" "BODY" (.base "reload failed") rfl rfl).2 _ rfl

/-- C10: when serialization succeeds and the reload capability returns no
error, Update returns nil error, nil resourceErrors and nil rawErrBody. -/
theorem inMemoryUpdate_success (s : UpdateStrategyInMemory)
    (t : ContentWithHash) (cfg body : String)
    (hm : s.marshal (s.convert t.content) = .ok cfg)
    (hr : s.reload cfg true true = (body, none)) :
    s.Update t = (none, none, none) := by
  simp only [UpdateStrategyInMemory.Update, hm, hr]

/-- A whole-state strategy whose reload succeeds. -/
def inMemorySuccessFixture : UpdateStrategyInMemory :=
  { inMemoryParseableFixture with reload := fun _ _ _ => ("", none) }

/-- Concrete instance of C10: the success case carries no residual error
data. -/
theorem inMemoryUpdate_success_witness :
    inMemorySuccessFixture.Update ⟨⟨"cfg"⟩, "abc123"⟩ = (none, none, none) := by
  exact inMemoryUpdate_success inMemorySuccessFixture ⟨⟨"cfg"⟩, "abc123"⟩
    "cfg" "" rfl rfl

/-- One recorded entity diff (`diagnostics.EntityDiff`). -/
structure EntityDiff where
  diff : String
  action : String
deriving DecidableEq, Repr

/-- Modelled from the spec: `diagnostics.NewEntityDiff` is repository code
absent from the provided sources; the spec diagnostics record is an ordered
sequence of pairs of diff text and action. -/
def NewEntityDiff (diff action : String) : EntityDiff :=
  { diff := diff, action := action }

/-- `diagnostics.ConfigDiff`: the record flushed to the diagnostics sink. -/
structure ConfigDiff where
  hash : String
  entities : List EntityDiff
deriving DecidableEq, Repr

/-- Opaque live/rendered configuration state (`*state.KongState`). -/
structure KongState where
  raw : String
deriving DecidableEq, Repr

/-- Embedding of the `UpdateStrategyDBMode` struct. The `*kong.Client` is
kept as the only datum the sources read from it, its base root URL; the
diagnostics sink pointer is kept as its nil-ness (`Option Unit`); the logger
and the shared mutex are omitted — the event consumption is sequentialized
below, which is what the lock discipline of the source achieves within one
call. -/
structure UpdateStrategyDBMode where
  client : String
  dumpConfig : String
  version : String
  concurrency : Nat
  diagnostic : Option Unit
  isKonnect : Bool
  resourceErrors : List ResourceError

/-- Embedding of `NewUpdateStrategyDBMode`. -/
def NewUpdateStrategyDBMode (client dumpConfig version : String)
    (concurrency : Nat) (diagnostic : Option Unit) : UpdateStrategyDBMode :=
  { client := client
    dumpConfig := dumpConfig
    version := version
    concurrency := concurrency
    diagnostic := diagnostic
    isKonnect := false
    resourceErrors := [] }

/-- Embedding of `NewUpdateStrategyDBModeKonnect`: same construction, then
the Konnect flag is set; the given diagnostics sink is stored unchanged. -/
def NewUpdateStrategyDBModeKonnect (client dumpConfig version : String)
    (concurrency : Nat) (diagnostic : Option Unit) : UpdateStrategyDBMode :=
  { NewUpdateStrategyDBMode client dumpConfig version concurrency diagnostic with
    isKonnect := true }

/-- Modelled from the spec: the code that sets up the cloud-hosted (Konnect)
variant is outside the provided sources; per the spec, diagnostics are
enabled only for directly-managed proxies and the Konnect variant is set up
without providing a diagnostics sink. -/
def specKonnectStrategy (client dumpConfig version : String)
    (concurrency : Nat) : UpdateStrategyDBMode :=
  NewUpdateStrategyDBModeKonnect client dumpConfig version concurrency none

/-- The mutable state of one `HandleEvents` run: the shared resource-error
list and the consumer-local diagnostics buffer (`diff.Entities`). -/
structure HandleEventsState where
  resourceErrors : List ResourceError
  entities : List EntityDiff
deriving DecidableEq, Repr

/-- One iteration of the `HandleEvents` select loop on a received event:
an error-free event appends its entity diff to the diagnostics buffer; an
event with an error is classified — on success the record is appended to
the resource errors, on classification failure the event is logged and
dropped, and a classification crash (a Go panic) kills the consuming
goroutine, modelled as `none`. -/
def handleEventsStep1 (st : HandleEventsState) (event : EntityAction) :
    Option HandleEventsState :=
  match event.error with
  | none =>
    some { st with entities := st.entities ++ [NewEntityDiff event.diff event.action] }
  | some _ =>
    match resourceErrorFromEntityAction event with
    | .ok parsed => some { st with resourceErrors := st.resourceErrors ++ [parsed] }
    | .err _ => some st
    | .crash _ => none

/-- The `HandleEvents` receive loop over the sequence of events delivered
before cancellation. -/
def handleEventsLoop (st : HandleEventsState) :
    List EntityAction → Option HandleEventsState
  | [] => some st
  | e :: rest =>
    match handleEventsStep1 st e with
    | some st2 => handleEventsLoop st2 rest
    | none => none

/-- Embedding of `UpdateStrategyDBMode.HandleEvents` as a run over the
events delivered before the context is cancelled. The source locks the
shared mutex on entry and releases it only in the cancellation branch, so
within one run the loop is sequential exactly as modelled; the cancellation
branch sends `{hash, buffered diffs}` to the diagnostics sink if and only if
the sink is non-nil, and then returns, so the single possible flush is the
final action of the run. The result is the final resource-error list and
the list of flush emissions (`none` = the goroutine panicked while
classifying). -/
def UpdateStrategyDBMode.HandleEvents (s : UpdateStrategyDBMode)
    (diagnostic : Option Unit) (hash : String) (events : List EntityAction) :
    Option (List ResourceError × List ConfigDiff) :=
  match handleEventsLoop { resourceErrors := s.resourceErrors, entities := [] } events with
  | none => none
  | some st =>
    some (st.resourceErrors,
      match diagnostic with
      | some _ => [{ hash := hash, entities := st.entities }]
      | none => [])

/-- The external outcomes one diff-apply `Update` call observes: the live
state fetch (`dump.Get` + `state.Get`), the target-state rendering
(`file.Get` + `state.Get`, a function of the live state), the syncer
construction, the global error list returned by `syncer.Solve` (`none` =
the nil slice), and the entity events the syncer emits while solving. -/
structure DBModeEnv where
  currentState : Except GoError KongState
  targetState : KongState → Except GoError KongState
  newSyncer : Except GoError Unit
  solveErrs : Option (List GoError)
  events : List EntityAction

/-- Embedding of `UpdateStrategyDBMode.Update`. The source takes the
strategy by value (a value receiver), so the caller's instance is never
modified; the call-local copy is what `HandleEvents` appends to and what the
aggregation reads back under the lock. Result: `none` models a consumer
panic; otherwise the returned error (nil = success) and the diagnostics
flushes emitted during the run. -/
def UpdateStrategyDBMode.Update (s : UpdateStrategyDBMode) (env : DBModeEnv)
    (targetContent : ContentWithHash) : Option (Option GoError × List ConfigDiff) :=
  match env.currentState with
  | .error err =>
    some (some (.wrapped ("failed getting current state for " ++ s.client) [err]), [])
  | .ok cs =>
    match env.targetState cs with
    | .error err => some (some (.configConflict err), [])
    | .ok _ts =>
      match env.newSyncer with
      | .error err =>
        some (some (.wrapped ("creating a new syncer for " ++ s.client) [err]), [])
      | .ok _ =>
        match s.HandleEvents s.diagnostic targetContent.hash env.events with
        | none => none
        | some (finalErrors, flushes) =>
          let resourceFailures := resourceErrorsToResourceFailures finalErrors
          match env.solveErrs with
          | some errs =>
            some (some (NewUpdateError resourceFailures (.errArray errs)), flushes)
          | none =>
            if resourceFailures.length > 0 then
              some (some (NewUpdateError resourceFailures
                (.base "go-database-reconciler found resource errors")), flushes)
            else some (none, flushes)

/-- C3: once the consumer has drained, the aggregation is a trichotomy on
the solve errors and the accumulated resource errors: none/none is success,
resource errors alone are wrapped with the synthesized generic cause, and
global errors are wrapped together with the resource list. -/
theorem dbmode_update_aggregation (s : UpdateStrategyDBMode) (env : DBModeEnv)
    (tc : ContentWithHash) (cs ts : KongState)
    (finalErrors : List ResourceError) (flushes : List ConfigDiff)
    (hcs : env.currentState = .ok cs)
    (hts : env.targetState cs = .ok ts)
    (hsy : env.newSyncer = .ok ())
    (hdrain : s.HandleEvents s.diagnostic tc.hash env.events = some (finalErrors, flushes)) :
    (env.solveErrs = none → resourceErrorsToResourceFailures finalErrors = [] →
      s.Update env tc = some (none, flushes)) ∧
    (env.solveErrs = none → resourceErrorsToResourceFailures finalErrors ≠ [] →
      s.Update env tc =
        some (some (NewUpdateError (resourceErrorsToResourceFailures finalErrors)
          (.base "go-database-reconciler found resource errors")), flushes)) ∧
    (∀ errs, env.solveErrs = some errs →
      s.Update env tc =
        some (some (NewUpdateError (resourceErrorsToResourceFailures finalErrors)
          (.errArray errs)), flushes)) := by
  refine ⟨?_, ?_, ?_⟩
  · intro hsolve hempty
    simp only [UpdateStrategyDBMode.Update, hcs, hts, hsy, hdrain, hsolve, hempty,
      List.length_nil, gt_iff_lt, lt_self_iff_false, if_false]
  · intro hsolve hne
    have hlen : 0 < (resourceErrorsToResourceFailures finalErrors).length :=
      List.length_pos.mpr hne
    simp only [UpdateStrategyDBMode.Update, hcs, hts, hsy, hdrain, hsolve,
      gt_iff_lt, hlen, if_true]
  · intro errs hsolve
    simp only [UpdateStrategyDBMode.Update, hcs, hts, hsy, hdrain, hsolve]

/-- A DB-mode strategy over a directly-managed proxy with a diagnostics
sink. -/
def dbmodeDiagFixture : UpdateStrategyDBMode :=
  NewUpdateStrategyDBMode "https://localhost:8444" "dump" "3.6.0" 10 (some ())

/-- A classifiable error event used in concrete runs. -/
def errorEventA : EntityAction :=
  { action := "create"
    entity :=
      { name := "svc-a", kind := "service", old := none
        new := some (.structVal (some (.strPtrSlice (some [some "team-a"])))) }
    diff := ""
    error := some "boom A" }

/-- The record `errorEventA` classifies to. -/
def resourceErrorA : ResourceError :=
  { name := "svc-a", kind := "service", tags := ["team-a"],
    problems := [("", "boom A")] }

/-- A second classifiable error event, distinct from `errorEventA`. -/
def errorEventB : EntityAction :=
  { action := "delete"
    entity :=
      { name := "svc-b", kind := "service"
        old := some (.structVal (some (.strPtrSlice (some [some "team-b"]))))
        new := none }
    diff := ""
    error := some "boom B" }

/-- The record `errorEventB` classifies to. -/
def resourceErrorB : ResourceError :=
  { name := "svc-b", kind := "service", tags := ["team-b"],
    problems := [("", "boom B")] }

/-- A happy-path environment (fetch, render and syncer construction all
succeed, solve returns no global error) emitting one given event. -/
def happyEnvWith (events : List EntityAction) : DBModeEnv :=
  { currentState := .ok ⟨"live"⟩
    targetState := fun _ => .ok ⟨"rendered"⟩
    newSyncer := .ok ()
    solveErrs := none
    events := events }

/-- Concrete instance of C3 (middle branch): one classified resource error
and no global error yields the aggregate with the synthesized cause. -/
theorem dbmode_update_aggregation_witness :
    dbmodeDiagFixture.Update (happyEnvWith [errorEventA]) ⟨⟨"c"⟩, "h1"⟩ =
      some (some (NewUpdateError [resourceErrorA]
        (.base "go-database-reconciler found resource errors")),
        [{ hash := "h1", entities := [] }]) := by
  exact (dbmode_update_aggregation dbmodeDiagFixture (happyEnvWith [errorEventA])
    ⟨⟨"c"⟩, "h1"⟩ ⟨"live"⟩ ⟨"rendered"⟩ [resourceErrorA]
    [{ hash := "h1", entities := [] }] rfl rfl rfl rfl).2.1 rfl (by decide)

/-- C9: a target-state rendering failure is returned as the distinguished
conflict error kind, while a live-state fetch failure and a syncer
construction failure are returned as ordinary wrapped (transport-style)
errors, not conflicts. -/
theorem dbmode_conflict_error_distinguished (s : UpdateStrategyDBMode)
    (env : DBModeEnv) (tc : ContentWithHash) :
    (∀ e, env.currentState = .error e →
      s.Update env tc =
        some (some (.wrapped ("failed getting current state for " ++ s.client) [e]), []) ∧
      (GoError.wrapped ("failed getting current state for " ++ s.client) [e]).isConflict
        = false) ∧
    (∀ cs e, env.currentState = .ok cs → env.targetState cs = .error e →
      s.Update env tc = some (some (.configConflict e), []) ∧
      (GoError.configConflict e).isConflict = true) ∧
    (∀ cs ts e, env.currentState = .ok cs → env.targetState cs = .ok ts →
      env.newSyncer = .error e →
      s.Update env tc =
        some (some (.wrapped ("creating a new syncer for " ++ s.client) [e]), []) ∧
      (GoError.wrapped ("creating a new syncer for " ++ s.client) [e]).isConflict
        = false) := by
  refine ⟨?_, ?_, ?_⟩
  · intro e h
    exact ⟨by simp only [UpdateStrategyDBMode.Update, h], rfl⟩
  · intro cs e hcs hts
    exact ⟨by simp only [UpdateStrategyDBMode.Update, hcs, hts], rfl⟩
  · intro cs ts e hcs hts hsy
    exact ⟨by simp only [UpdateStrategyDBMode.Update, hcs, hts, hsy], rfl⟩

/-- An environment whose target-state rendering fails. -/
def conflictEnv : DBModeEnv :=
  { happyEnvWith [] with targetState := fun _ => .error (.base "render clash") }

/-- Concrete instance of C9: the rendering failure comes back as the
conflict kind. -/
theorem dbmode_conflict_error_distinguished_witness :
    dbmodeDiagFixture.Update conflictEnv ⟨⟨"c"⟩, "h1"⟩ =
      some (some (.configConflict (.base "render clash")), []) ∧
    (GoError.configConflict (.base "render clash")).isConflict = true := by
  exact (dbmode_conflict_error_distinguished dbmodeDiagFixture conflictEnv
    ⟨⟨"c"⟩, "h1"⟩).2.1 ⟨"live"⟩ (.base "render clash") rfl rfl

/-- C6: a run flushes the diagnostics record at most once, as its final
action (the cancellation branch), and only when the diagnostics sink is
present; the cloud-hosted variant as set up per the spec carries no sink,
so its runs never flush. -/
theorem diagnostics_flush_gating (s : UpdateStrategyDBMode)
    (diagnostic : Option Unit) (hash : String) (events : List EntityAction)
    (st : HandleEventsState)
    (hl : handleEventsLoop { resourceErrors := s.resourceErrors, entities := [] } events
      = some st) :
    s.HandleEvents diagnostic hash events =
      some (st.resourceErrors,
        match diagnostic with
        | some _ => [{ hash := hash, entities := st.entities }]
        | none => []) ∧
    (∀ R flushes, s.HandleEvents diagnostic hash events = some (R, flushes) →
      flushes.length ≤ 1 ∧ (flushes ≠ [] → diagnostic ≠ none)) ∧
    (∀ c d v n hash2 events2 R flushes,
      (specKonnectStrategy c d v n).HandleEvents
        (specKonnectStrategy c d v n).diagnostic hash2 events2 = some (R, flushes) →
      flushes = []) := by
  refine ⟨?_, ?_, ?_⟩
  · simp only [UpdateStrategyDBMode.HandleEvents, hl]
  · intro R flushes h
    rw [UpdateStrategyDBMode.HandleEvents, hl] at h
    cases diagnostic with
    | none =>
      simp only [Option.some.injEq, Prod.mk.injEq] at h
      obtain ⟨-, h2⟩ := h
      subst h2
      exact ⟨by simp, fun hc => absurd rfl hc⟩
    | some u =>
      simp only [Option.some.injEq, Prod.mk.injEq] at h
      obtain ⟨-, h2⟩ := h
      subst h2
      exact ⟨by simp, fun _ => by simp⟩
  · intro c d v n hash2 events2 R flushes h
    have hd : (specKonnectStrategy c d v n).diagnostic = none := rfl
    rw [UpdateStrategyDBMode.HandleEvents, hd] at h
    revert h
    rcases (handleEventsLoop
        { resourceErrors := (specKonnectStrategy c d v n).resourceErrors, entities := [] }
        events2) with _ | st2
    · intro h; cases h
    · intro h
      simp only [Option.some.injEq, Prod.mk.injEq] at h
      exact h.2.symm

/-- Concrete instance of C6: a run with one error-free event and a sink
present flushes exactly once, with the buffered entity diff. -/
theorem diagnostics_flush_gating_witness :
    dbmodeDiagFixture.HandleEvents (some ()) "abc123"
      [{ action := "create"
         entity := { name := "r1", kind := "route", old := none, new := none }
         diff := "+ route r1"
         error := none }] =
      some ([], [{ hash := "abc123",
                   entities := [{ diff := "+ route r1", action := "create" }] }]) := by
  exact (diagnostics_flush_gating dbmodeDiagFixture (some ()) "abc123"
    [{ action := "create"
       entity := { name := "r1", kind := "route", old := none, new := none }
       diff := "+ route r1"
       error := none }]
    { resourceErrors := [],
      entities := [{ diff := "+ route r1", action := "create" }] } rfl).1

/-- A DB-mode strategy instance without a diagnostics sink, as one long-lived
instance across several Update calls. -/
def dbmodeInstanceFixture : UpdateStrategyDBMode :=
  NewUpdateStrategyDBMode "https://localhost:8444" "dump" "3.6.0" 10 none

/-- C8 counterexample: two successive Update calls on the same instance.
The first call classifies and reports `resourceErrorA`; the second call
reports exactly its own `resourceErrorB` — the first call's error is not
present, because `Update` takes the strategy by value and `HandleEvents`
appends to that call-local copy, which is never written back to the
instance. -/
theorem dbmode_cross_call_accumulation_refuted :
    dbmodeInstanceFixture.Update (happyEnvWith [errorEventA]) ⟨⟨"c"⟩, "h1"⟩ =
      some (some (.updateError [resourceErrorA]
        (.base "go-database-reconciler found resource errors")), []) ∧
    dbmodeInstanceFixture.Update (happyEnvWith [errorEventB]) ⟨⟨"c"⟩, "h2"⟩ =
      some (some (.updateError [resourceErrorB]
        (.base "go-database-reconciler found resource errors")), []) ∧
    resourceErrorA ∉ [resourceErrorB] := by
  exact ⟨rfl, rfl, by decide⟩

/-- C8 amended: accumulation is scoped to the call, not the instance. Every
Update call on a constructor-built instance starts the drain from the
instance's empty list and reports exactly the resource errors classified
from its own run's events; the instance's stored list is empty and, the
receiver being a value, is never modified by a call. -/
theorem dbmode_accumulation_call_scoped (c d v : String) (n : Nat)
    (diag : Option Unit) (env : DBModeEnv) (tc : ContentWithHash)
    (cs ts : KongState) (st : HandleEventsState)
    (hcs : env.currentState = .ok cs) (hts : env.targetState cs = .ok ts)
    (hsy : env.newSyncer = .ok ()) (hsolve : env.solveErrs = none)
    (hl : handleEventsLoop { resourceErrors := [], entities := [] } env.events = some st)
    (hne : st.resourceErrors ≠ []) :
    (NewUpdateStrategyDBMode c d v n diag).Update env tc =
      some (some (NewUpdateError st.resourceErrors
        (.base "go-database-reconciler found resource errors")),
        match diag with
        | some _ => [{ hash := tc.hash, entities := st.entities }]
        | none => []) ∧
    (NewUpdateStrategyDBMode c d v n diag).resourceErrors = [] := by
  have hdrain : (NewUpdateStrategyDBMode c d v n diag).HandleEvents diag tc.hash env.events
      = some (st.resourceErrors,
          match diag with
          | some _ => [{ hash := tc.hash, entities := st.entities }]
          | none => []) := by
    simp only [UpdateStrategyDBMode.HandleEvents, NewUpdateStrategyDBMode, hl]
  have hlen : 0 < (resourceErrorsToResourceFailures st.resourceErrors).length :=
    List.length_pos.mpr hne
  constructor
  · simp only [UpdateStrategyDBMode.Update, hcs, hts, hsy, hsolve]
    rw [show (NewUpdateStrategyDBMode c d v n diag).diagnostic = diag from rfl, hdrain]
    simp only [gt_iff_lt, NewUpdateError, resourceErrorsToResourceFailures]
    rw [if_pos (List.length_pos.mpr hne)]
  · rfl

/-- Concrete instance of the amended C8: a call on the sink-less instance
with one classifiable error event reports exactly that error. -/
theorem dbmode_accumulation_call_scoped_witness :
    dbmodeInstanceFixture.Update (happyEnvWith [errorEventB]) ⟨⟨"c"⟩, "h2"⟩ =
      some (some (NewUpdateError [resourceErrorB]
        (.base "go-database-reconciler found resource errors")), []) ∧
    dbmodeInstanceFixture.resourceErrors = [] := by
  exact dbmode_accumulation_call_scoped "https://localhost:8444" "dump" "3.6.0"
    10 none (happyEnvWith [errorEventB]) ⟨⟨"c"⟩, "h2"⟩ ⟨"live"⟩ ⟨"rendered"⟩
    { resourceErrors := [resourceErrorB], entities := [] }
    rfl rfl rfl rfl rfl (by decide)

/-- Successful classification outcome of one event, `none` for error-free
events and for events whose classification fails or crashes. -/
def classifiedOk (e : EntityAction) : Option ResourceError :=
  match e.error with
  | none => none
  | some _ =>
    match resourceErrorFromEntityAction e with
    | .ok p => some p
    | .err _ => none
    | .crash _ => none

theorem handleEventsLoop_append (st : HandleEventsState) (xs ys : List EntityAction) :
    handleEventsLoop st (xs ++ ys) =
      match handleEventsLoop st xs with
      | some st2 => handleEventsLoop st2 ys
      | none => none := by
  induction xs generalizing st with
  | nil => rfl
  | cons x xs ih =>
    simp only [List.cons_append, handleEventsLoop]
    cases handleEventsStep1 st x with
    | none => rfl
    | some st2 => exact ih st2

theorem handleEventsLoop_contents (events : List EntityAction)
    (st st2 : HandleEventsState)
    (h : handleEventsLoop st events = some st2) :
    st2.entities = st.entities ++
      (events.filter (fun e => e.error.isNone)).map
        (fun e => NewEntityDiff e.diff e.action) ∧
    st2.resourceErrors = st.resourceErrors ++ events.filterMap classifiedOk := by
  induction events generalizing st with
  | nil =>
    rw [handleEventsLoop] at h
    cases h
    simp
  | cons e rest ih =>
    rw [handleEventsLoop] at h
    rcases hs : handleEventsStep1 st e with _ | stm
    · rw [hs] at h; cases h
    · rw [hs] at h
      obtain ⟨h1, h2⟩ := ih stm h
      rw [handleEventsStep1] at hs
      cases he : e.error with
      | none =>
        rw [he] at hs
        cases hs
        simp only [List.filter_cons, List.filterMap_cons, he, Option.isNone_none,
          List.map_cons, classifiedOk] at h1 h2 ⊢
        constructor
        · rw [h1]; simp
        · rw [h2]
      | some msg =>
        rw [he] at hs
        rcases hcl : resourceErrorFromEntityAction e with p | m | m
        · rw [hcl] at hs
          cases hs
          simp only [List.filter_cons, List.filterMap_cons, he, Option.isNone_some,
            Bool.false_eq_true, if_false, classifiedOk, hcl] at h1 h2 ⊢
          constructor
          · rw [h1]
          · rw [h2]; simp
        · rw [hcl] at hs
          cases hs
          simp only [List.filter_cons, List.filterMap_cons, he, Option.isNone_some,
            Bool.false_eq_true, if_false, classifiedOk, hcl] at h1 h2 ⊢
          exact ⟨h1, h2⟩
        · rw [hcl] at hs
          cases hs

/-- The two tasks that overlap inside one diff-apply `Update` call after the
syncer is constructed: the consumer goroutine running `HandleEvents`, and
the updater goroutine running `Solve` (whose workers emit the entity events),
then `cancel()`, then `Lock()` and the read-back of the shared list. -/
inductive Tid where
  | consumer
  | updater
deriving DecidableEq, Repr

/-- One diff-apply run as seen by the concurrency model: the events the
syncer emits during `Solve` in emission order (delivered over an unbuffered
channel, i.e. each delivery is a synchronous rendezvous), and whether a
diagnostics sink is present. -/
structure SyncSystem where
  events : List EntityAction
  diag : Bool
deriving DecidableEq, Repr

/-- Interleaving state of the two tasks. Program counters, with
`n := events.length`:
* consumer `cpc`: 0 = about to execute the `Lock()` on the first line of
  `HandleEvents`; 1 = in the select loop; 2 = returned (cancellation branch
  taken: flush if the sink is present, then `Unlock()`).
* updater `upc`: `i < n` = `Solve` is delivering event `i`; `n` = about to
  `cancel()`; `n+1` = about to `Lock()`; `n+2` = holding the lock, about to
  read the shared list; `n+3` = done (read taken, `Unlock()` deferred).
`owner` is the holder of the shared `resourceErrorLock`; `hstate` is the
consumer's accumulation (the shared resource-error list of the call's copy
of the strategy, plus the consumer-local diagnostics buffer); `readErrors`
is the value of the shared list at the moment the updater read it. -/
structure SyncState where
  cpc : Nat
  upc : Nat
  owner : Option Tid
  cancelled : Bool
  flushed : Bool
  readDone : Bool
  hstate : HandleEventsState
  readErrors : Option (List ResourceError)
deriving DecidableEq, Repr

/-- Both tasks at their first instruction; the shared list starts at the
strategy copy's current value `rs0`. -/
def initSyncState (rs0 : List ResourceError) : SyncState :=
  { cpc := 0
    upc := 0
    owner := none
    cancelled := false
    flushed := false
    readDone := false
    hstate := { resourceErrors := rs0, entities := [] }
    readErrors := none }

/-- Interleaving semantics of the cancel-then-lock join of
`UpdateStrategyDBMode.Update` / `HandleEvents`. Every constructor is one
atomic step of one task; any enabled step may fire, so the relation
quantifies over all schedules. The event channel is a synchronous
rendezvous: a delivery needs the consumer at its receive point, and the
consumer processes the event with `handleEventsStep1` (a crash disables the
step: the goroutine would die and nothing further would be delivered). -/
inductive SyncStep (sys : SyncSystem) : SyncState → SyncState → Prop where
  /-- Consumer: the `Lock()` on entry to `HandleEvents`. -/
  | lockC (st : SyncState) (h1 : st.cpc = 0) (h2 : st.owner = none) :
      SyncStep sys st { st with cpc := 1, owner := some Tid.consumer }
  /-- Rendezvous: `Solve` delivers the next event and the consumer's select
  loop processes it. -/
  | handoff (st : SyncState) (e : EntityAction) (st2 : HandleEventsState)
      (h1 : st.cpc = 1)
      (h2 : sys.events[st.upc]? = some e)
      (h3 : handleEventsStep1 st.hstate e = some st2) :
      SyncStep sys st { st with upc := st.upc + 1, hstate := st2 }
  /-- Updater: `Solve` has returned; `cancel()` fires the derived context. -/
  | cancel (st : SyncState) (h1 : st.upc = sys.events.length) :
      SyncStep sys st { st with upc := st.upc + 1, cancelled := true }
  /-- Updater: the post-cancel `Lock()`. -/
  | lockU (st : SyncState) (h1 : st.upc = sys.events.length + 1)
      (h2 : st.owner = none) :
      SyncStep sys st { st with upc := st.upc + 1, owner := some Tid.updater }
  /-- Updater: reads the shared resource-error list (and releases the lock
  when the call returns). -/
  | readU (st : SyncState) (h1 : st.upc = sys.events.length + 2) :
      SyncStep sys st { st with upc := st.upc + 1, owner := none, readDone := true, readErrors := some st.hstate.resourceErrors }
  /-- Consumer: the cancellation branch of the select — flush the
  diagnostics record if a sink is present, `Unlock()`, return. -/
  | doneC (st : SyncState) (h1 : st.cpc = 1) (h2 : st.cancelled = true) :
      SyncStep sys st { st with cpc := 2, owner := none, flushed := sys.diag }

/-- A zero-event run with diagnostics enabled, in which the consumer
goroutine is never scheduled before the updater finishes. -/
def unflushedReadState : SyncState :=
  { cpc := 0
    upc := 3
    owner := none
    cancelled := true
    flushed := false
    readDone := true
    hstate := { resourceErrors := [], entities := [] }
    readErrors := some [] }

/-- C7 counterexample: a legal complete interleaving in which the updater
has read the shared resource-error list while the consumer has not flushed
— indeed has not even acquired the lock. The schedule: `Solve` emits no
events and returns, `cancel()` fires, the updater wins the lock race and
reads, all before the consumer goroutine runs its first instruction. Go
guarantees no ordering between a `go` statement's goroutine and the
spawning goroutine, so this schedule is admissible; the cancel-then-lock
sequence therefore does not order the flush before the read for every
interleaving. -/
theorem dbmode_read_can_precede_flush :
    Relation.ReflTransGen (SyncStep { events := [], diag := true })
      (initSyncState []) unflushedReadState ∧
    unflushedReadState.readDone = true ∧
    unflushedReadState.flushed = false ∧
    unflushedReadState.cpc = 0 := by
  refine ⟨?_, rfl, rfl, rfl⟩
  have h1 : SyncStep { events := [], diag := true } (initSyncState [])
      { cpc := 0, upc := 1, owner := none, cancelled := true, flushed := false,
        readDone := false, hstate := { resourceErrors := [], entities := [] },
        readErrors := none } :=
    SyncStep.cancel (initSyncState []) rfl
  have h2 : SyncStep { events := [], diag := true }
      { cpc := 0, upc := 1, owner := none, cancelled := true, flushed := false,
        readDone := false, hstate := { resourceErrors := [], entities := [] },
        readErrors := none }
      { cpc := 0, upc := 2, owner := some Tid.updater, cancelled := true,
        flushed := false, readDone := false,
        hstate := { resourceErrors := [], entities := [] }, readErrors := none } :=
    SyncStep.lockU _ rfl rfl
  have h3 : SyncStep { events := [], diag := true }
      { cpc := 0, upc := 2, owner := some Tid.updater, cancelled := true,
        flushed := false, readDone := false,
        hstate := { resourceErrors := [], entities := [] }, readErrors := none }
      unflushedReadState :=
    SyncStep.readU _ rfl
  exact Relation.ReflTransGen.head h1 (Relation.ReflTransGen.head h2
    (Relation.ReflTransGen.head h3 Relation.ReflTransGen.refl))

/-- Inductive invariant of the cancel-then-lock join, valid for runs that
deliver at least one event (a first delivery forces the consumer to have
acquired the lock before the updater can reach its own lock). -/
structure SyncInv (sys : SyncSystem) (rs0 : List ResourceError) (st : SyncState) : Prop where
  ownerC : st.owner = some Tid.consumer ↔ st.cpc = 1
  ownerU : st.owner = some Tid.updater ↔ st.upc = sys.events.length + 2
  cpcLe : st.cpc ≤ 2
  upcLe : st.upc ≤ sys.events.length + 3
  cancelledIff : st.cancelled = true ↔ sys.events.length + 1 ≤ st.upc
  flushedIff : st.flushed = true ↔ (st.cpc = 2 ∧ sys.diag = true)
  readDoneIff : st.readDone = true ↔ st.upc = sys.events.length + 3
  upcCpc : 1 ≤ st.upc → 1 ≤ st.cpc
  drained : handleEventsLoop { resourceErrors := rs0, entities := [] } (sys.events.take st.upc) = some st.hstate
  lockedImpliesDone : sys.events.length + 2 ≤ st.upc → st.cpc = 2
  readVal : st.upc = sys.events.length + 3 → st.readErrors = some st.hstate.resourceErrors

theorem syncInv_init (sys : SyncSystem) (rs0 : List ResourceError) :
    SyncInv sys rs0 (initSyncState rs0) := by
  refine ⟨?_, ?_, ?_, ?_, ?_, ?_, ?_, ?_, ?_, ?_, ?_⟩
  · simp [initSyncState]
  · simp [initSyncState]
  · simp [initSyncState]
  · simp [initSyncState]
  · simp [initSyncState]
  · simp [initSyncState]
  · simp [initSyncState]
  · intro h; simp [initSyncState] at h
  · simp [initSyncState, handleEventsLoop]
  · intro h; simp [initSyncState] at h
  · intro h; simp [initSyncState] at h

theorem syncInv_step (sys : SyncSystem) (rs0 : List ResourceError)
    (hn : 1 ≤ sys.events.length) (a b : SyncState)
    (inv : SyncInv sys rs0 a) (hstep : SyncStep sys a b) : SyncInv sys rs0 b := by
  obtain ⟨ownerC, ownerU, cpcLe, upcLe, cancelledIff, flushedIff, readDoneIff,
    upcCpc, drained, lockedImpliesDone, readVal⟩ := inv
  cases hstep with
  | lockC h1 h2 =>
    refine ⟨?_, ?_, ?_, ?_, ?_, ?_, ?_, ?_, ?_, ?_, ?_⟩ <;> dsimp only
    · simp
    · constructor
      · intro hx
        exact absurd hx (by simp)
      · intro hu
        have hown := ownerU.mpr hu
        rw [h2] at hown
        cases hown
    · omega
    · exact upcLe
    · exact cancelledIff
    · constructor
      · intro hf
        have := (flushedIff.mp hf).1
        omega
      · rintro ⟨hc, -⟩
        exact absurd hc (by omega)
    · exact readDoneIff
    · intro _
      omega
    · exact drained
    · intro hle
      have := lockedImpliesDone hle
      omega
    · exact readVal
  | handoff e st2 h1 h2 h3 =>
    have hlt : a.upc < sys.events.length := (List.getElem?_eq_some.mp h2).1
    refine ⟨?_, ?_, ?_, ?_, ?_, ?_, ?_, ?_, ?_, ?_, ?_⟩ <;> dsimp only
    · exact ownerC
    · constructor
      · intro hu
        have := ownerU.mp hu
        omega
      · intro hu
        exact absurd hu (by omega)
    · exact cpcLe
    · omega
    · constructor
      · intro hc
        have := cancelledIff.mp hc
        omega
      · intro hc
        exact absurd hc (by omega)
    · exact flushedIff
    · constructor
      · intro hr
        have := readDoneIff.mp hr
        omega
      · intro hr
        exact absurd hr (by omega)
    · intro _
      omega
    · have ht : sys.events.take (a.upc + 1) = sys.events.take a.upc ++ [e] := by
        rw [List.take_succ, h2]
        rfl
      rw [ht, handleEventsLoop_append, drained]
      simp only [handleEventsLoop, h3]
    · intro hle
      omega
    · intro heq
      exact absurd heq (by omega)
  | cancel h1 =>
    refine ⟨?_, ?_, ?_, ?_, ?_, ?_, ?_, ?_, ?_, ?_, ?_⟩ <;> dsimp only
    · exact ownerC
    · constructor
      · intro hu
        have := ownerU.mp hu
        omega
      · intro hu
        exact absurd hu (by omega)
    · exact cpcLe
    · omega
    · constructor
      · intro _
        omega
      · intro _
        rfl
    · exact flushedIff
    · constructor
      · intro hr
        have := readDoneIff.mp hr
        omega
      · intro hr
        exact absurd hr (by omega)
    · intro _
      exact upcCpc (by omega)
    · have ha : sys.events.take (a.upc + 1) = sys.events := List.take_of_length_le (by omega)
      have hb : sys.events.take a.upc = sys.events := List.take_of_length_le (by omega)
      rw [ha, ← hb]
      exact drained
    · intro hle
      omega
    · intro heq
      exact absurd heq (by omega)
  | lockU h1 h2 =>
    have c1 : 1 ≤ a.cpc := upcCpc (by omega)
    have c2 : a.cpc ≠ 1 := by
      intro hc
      have hown := ownerC.mpr hc
      rw [h2] at hown
      cases hown
    have hcpc2 : a.cpc = 2 := by omega
    refine ⟨?_, ?_, ?_, ?_, ?_, ?_, ?_, ?_, ?_, ?_, ?_⟩ <;> dsimp only
    · constructor
      · intro hx
        exact absurd hx (by simp)
      · intro hc
        exact absurd hc (by omega)
    · constructor
      · intro _
        omega
      · intro _
        rfl
    · exact cpcLe
    · omega
    · constructor
      · intro _
        omega
      · intro _
        exact cancelledIff.mpr (by omega)
    · exact flushedIff
    · constructor
      · intro hr
        have := readDoneIff.mp hr
        omega
      · intro hr
        exact absurd hr (by omega)
    · intro _
      omega
    · have ha : sys.events.take (a.upc + 1) = sys.events := List.take_of_length_le (by omega)
      have hb : sys.events.take a.upc = sys.events := List.take_of_length_le (by omega)
      rw [ha, ← hb]
      exact drained
    · intro _
      exact hcpc2
    · intro heq
      exact absurd heq (by omega)
  | readU h1 =>
    have hcpc2 : a.cpc = 2 := lockedImpliesDone (by omega)
    refine ⟨?_, ?_, ?_, ?_, ?_, ?_, ?_, ?_, ?_, ?_, ?_⟩ <;> dsimp only
    · constructor
      · intro hx
        exact absurd hx (by simp)
      · intro hc
        exact absurd hc (by omega)
    · constructor
      · intro hx
        exact absurd hx (by simp)
      · intro hu
        exact absurd hu (by omega)
    · exact cpcLe
    · omega
    · constructor
      · intro _
        omega
      · intro _
        exact cancelledIff.mpr (by omega)
    · exact flushedIff
    · constructor
      · intro _
        omega
      · intro _
        rfl
    · intro _
      omega
    · have ha : sys.events.take (a.upc + 1) = sys.events := List.take_of_length_le (by omega)
      have hb : sys.events.take a.upc = sys.events := List.take_of_length_le (by omega)
      rw [ha, ← hb]
      exact drained
    · intro _
      exact hcpc2
    · intro _
      rfl
  | doneC h1 h2 =>
    have hup : sys.events.length + 1 ≤ a.upc := cancelledIff.mp h2
    have hlt : a.upc < sys.events.length + 2 := by
      rcases Nat.lt_or_ge a.upc (sys.events.length + 2) with h | h
      · exact h
      · have := lockedImpliesDone h
        omega
    refine ⟨?_, ?_, ?_, ?_, ?_, ?_, ?_, ?_, ?_, ?_, ?_⟩ <;> dsimp only
    · constructor
      · intro hx
        exact absurd hx (by simp)
      · intro hc
        exact absurd hc (by omega)
    · constructor
      · intro hx
        exact absurd hx (by simp)
      · intro hu
        exact absurd hu (by omega)
    · omega
    · exact upcLe
    · exact cancelledIff
    · constructor
      · intro hd
        exact ⟨rfl, hd⟩
      · rintro ⟨-, hd⟩
        exact hd
    · exact readDoneIff
    · intro _
      omega
    · exact drained
    · intro _
      rfl
    · intro heq
      exact absurd heq (by omega)


theorem syncInv_reach (sys : SyncSystem) (rs0 : List ResourceError)
    (hn : 1 ≤ sys.events.length) (st : SyncState)
    (h : Relation.ReflTransGen (SyncStep sys) (initSyncState rs0) st) :
    SyncInv sys rs0 st := by
  induction h with
  | refl => exact syncInv_init sys rs0
  | tail hab hbc ih => exact syncInv_step sys rs0 hn _ _ ih hbc

/-- C7 amended: for every diff-apply run that delivers at least one event,
every interleaving orders the consumer's drain-and-flush before the
updater's read of the shared resource-error list (the first delivery forces
the consumer to hold the lock, so the updater's post-cancel lock only
succeeds after the consumer's cancellation branch has flushed and
unlocked), and once drained the consumer state is the full sequential
drain: the diagnostics buffer holds exactly the error-free events in
arrival order and the resource-error list exactly the successfully
classified error events. -/
theorem dbmode_drain_and_flush_before_read (sys : SyncSystem)
    (rs0 : List ResourceError) (st : SyncState)
    (hn : sys.events ≠ [])
    (hr : Relation.ReflTransGen (SyncStep sys) (initSyncState rs0) st)
    (hread : st.readDone = true) :
    st.cpc = 2 ∧
    st.flushed = sys.diag ∧
    handleEventsLoop { resourceErrors := rs0, entities := [] } sys.events = some st.hstate ∧
    st.readErrors = some st.hstate.resourceErrors ∧
    st.hstate.entities = (sys.events.filter (fun e => e.error.isNone)).map
      (fun e => NewEntityDiff e.diff e.action) ∧
    st.hstate.resourceErrors = rs0 ++ sys.events.filterMap classifiedOk := by
  have hn1 : 1 ≤ sys.events.length := List.length_pos.mpr hn
  obtain ⟨ownerC, ownerU, cpcLe, upcLe, cancelledIff, flushedIff, readDoneIff,
    upcCpc, drained, lockedImpliesDone, readVal⟩ := syncInv_reach sys rs0 hn1 st hr
  have hupc : st.upc = sys.events.length + 3 := readDoneIff.mp hread
  have hcpc : st.cpc = 2 := lockedImpliesDone (by omega)
  have hfull : sys.events.take st.upc = sys.events := List.take_of_length_le (by omega)
  rw [hfull] at drained
  have hcont := handleEventsLoop_contents sys.events _ _ drained
  refine ⟨hcpc, ?_, drained, readVal hupc, ?_, ?_⟩
  · cases hd : sys.diag with
    | true => exact flushedIff.mpr ⟨hcpc, hd⟩
    | false =>
      cases hf : st.flushed with
      | false => rfl
      | true =>
        have := (flushedIff.mp hf).2
        rw [hd] at this
        cases this
  · simpa using hcont.1
  · simpa using hcont.2

/-- An error-free event for the concrete drain run. -/
def drainRunEvent : EntityAction :=
  { action := "create"
    entity := { name := "r1", kind := "route", old := none, new := none }
    diff := "+ route r1"
    error := none }

/-- A one-event run with diagnostics enabled. -/
def drainRunSystem : SyncSystem :=
  { events := [drainRunEvent], diag := true }

/-- The final state of a complete interleaving of `drainRunSystem`. -/
def drainRunFinalState : SyncState :=
  { cpc := 2
    upc := 4
    owner := none
    cancelled := true
    flushed := true
    readDone := true
    hstate := { resourceErrors := [], entities := [NewEntityDiff "+ route r1" "create"] }
    readErrors := some [] }

/-- Concrete instance of the amended C7: in a complete one-event run the
consumer has finished and flushed by the time the read happens, the drain
equals the sequential drain, and the buffer holds exactly the error-free
event. -/
theorem dbmode_drain_and_flush_before_read_witness :
    drainRunFinalState.cpc = 2 ∧
    drainRunFinalState.flushed = drainRunSystem.diag ∧
    handleEventsLoop { resourceErrors := [], entities := [] } drainRunSystem.events
      = some drainRunFinalState.hstate ∧
    drainRunFinalState.readErrors = some drainRunFinalState.hstate.resourceErrors ∧
    drainRunFinalState.hstate.entities =
      (drainRunSystem.events.filter (fun e => e.error.isNone)).map
        (fun e => NewEntityDiff e.diff e.action) ∧
    drainRunFinalState.hstate.resourceErrors =
      [] ++ drainRunSystem.events.filterMap classifiedOk := by
  have t1 : SyncStep drainRunSystem (initSyncState [])
      { cpc := 1, upc := 0, owner := some Tid.consumer, cancelled := false,
        flushed := false, readDone := false,
        hstate := { resourceErrors := [], entities := [] }, readErrors := none } :=
    SyncStep.lockC (initSyncState []) rfl rfl
  have t2 : SyncStep drainRunSystem
      { cpc := 1, upc := 0, owner := some Tid.consumer, cancelled := false,
        flushed := false, readDone := false,
        hstate := { resourceErrors := [], entities := [] }, readErrors := none }
      { cpc := 1, upc := 1, owner := some Tid.consumer, cancelled := false,
        flushed := false, readDone := false,
        hstate := { resourceErrors := [],
                    entities := [NewEntityDiff "+ route r1" "create"] },
        readErrors := none } :=
    SyncStep.handoff _ drainRunEvent
      { resourceErrors := [], entities := [NewEntityDiff "+ route r1" "create"] }
      rfl rfl rfl
  have t3 : SyncStep drainRunSystem
      { cpc := 1, upc := 1, owner := some Tid.consumer, cancelled := false,
        flushed := false, readDone := false,
        hstate := { resourceErrors := [],
                    entities := [NewEntityDiff "+ route r1" "create"] },
        readErrors := none }
      { cpc := 1, upc := 2, owner := some Tid.consumer, cancelled := true,
        flushed := false, readDone := false,
        hstate := { resourceErrors := [],
                    entities := [NewEntityDiff "+ route r1" "create"] },
        readErrors := none } :=
    SyncStep.cancel _ rfl
  have t4 : SyncStep drainRunSystem
      { cpc := 1, upc := 2, owner := some Tid.consumer, cancelled := true,
        flushed := false, readDone := false,
        hstate := { resourceErrors := [],
                    entities := [NewEntityDiff "+ route r1" "create"] },
        readErrors := none }
      { cpc := 2, upc := 2, owner := none, cancelled := true,
        flushed := true, readDone := false,
        hstate := { resourceErrors := [],
                    entities := [NewEntityDiff "+ route r1" "create"] },
        readErrors := none } :=
    SyncStep.doneC _ rfl rfl
  have t5 : SyncStep drainRunSystem
      { cpc := 2, upc := 2, owner := none, cancelled := true,
        flushed := true, readDone := false,
        hstate := { resourceErrors := [],
                    entities := [NewEntityDiff "+ route r1" "create"] },
        readErrors := none }
      { cpc := 2, upc := 3, owner := some Tid.updater, cancelled := true,
        flushed := true, readDone := false,
        hstate := { resourceErrors := [],
                    entities := [NewEntityDiff "+ route r1" "create"] },
        readErrors := none } :=
    SyncStep.lockU _ rfl rfl
  have t6 : SyncStep drainRunSystem
      { cpc := 2, upc := 3, owner := some Tid.updater, cancelled := true,
        flushed := true, readDone := false,
        hstate := { resourceErrors := [],
                    entities := [NewEntityDiff "+ route r1" "create"] },
        readErrors := none }
      drainRunFinalState :=
    SyncStep.readU _ rfl
  have tr : Relation.ReflTransGen (SyncStep drainRunSystem) (initSyncState [])
      drainRunFinalState :=
    Relation.ReflTransGen.head t1 (Relation.ReflTransGen.head t2
      (Relation.ReflTransGen.head t3 (Relation.ReflTransGen.head t4
        (Relation.ReflTransGen.head t5 (Relation.ReflTransGen.head t6
          Relation.ReflTransGen.refl)))))
  exact dbmode_drain_and_flush_before_read drainRunSystem [] drainRunFinalState
    (by simp [drainRunSystem]) tr rfl

end Sendconfig
